import Mathlib

/-!
Verification development for the job-lifecycle / session-log dashboard.

The embedding models:
* JSON values as they occur after `JSON.parse` (`Json`), together with
  JavaScript property access, truthiness and `JSON.stringify`;
* the Session Log Reader (`getSessionData`, `getAllSessions` from
  `src/dashboard/lib/sessions.ts`);
* the Job Lifecycle Manager (`generateUUID`, `isProcessRunning`,
  `updateJobStatus`, `runJob`, the `POST /jobs`, `GET /jobs`,
  `GET/DELETE /jobs/[jobId]` handlers from the two API route files).

Modelling conventions:
* A parsed log line is a `Option Json`: `none` is a line on which
  `JSON.parse` throws.  JSON numbers are modelled as `Int` (the numeric
  values the claims exercise are integral; float formatting is
  orthogonal to every claim).
* Effects on the OS (spawning, signals, the clock, randomness) are
  passed in explicitly as environment values: the outcome of a
  `process.kill` call, the child pid, `new Date().toISOString()`
  results, the random bytes drawn by `Math.random`.
* File-system writes (temp files, log streams) have no effect on the
  jobs store and are outside the modelled state.
-/

/-- A JSON value, as produced by `JSON.parse` on one log line or one
request body.  Object fields are kept in order and assumed key-distinct
(the shape `JSON.parse` produces after its last-duplicate-wins step). -/
inductive Json where
  | null : Json
  | bool : Bool → Json
  | num : Int → Json
  | str : String → Json
  | arr : List Json → Json
  | obj : List (String × Json) → Json

/-- JavaScript property access `j.k` on a non-null value: a field lookup
on objects, `undefined` (here `none`) on every other non-null value.
Access on `null` throws in JavaScript and is handled at each use site. -/
def jsGet (j : Json) (k : String) : Option Json :=
  match j with
  | Json.obj fields => fields.lookup k
  | _ => none

/-- Optional chaining `o?.k` where `o` is a possibly-undefined value:
`undefined` and `null` short-circuit to `undefined`. -/
def jsOptChain (o : Option Json) (k : String) : Option Json :=
  match o with
  | none => none
  | some Json.null => none
  | some j => jsGet j k

/-- JavaScript truthiness of a defined value. -/
def jsTruthy : Json → Bool
  | Json.null => false
  | Json.bool b => b
  | Json.num n => n ≠ 0
  | Json.str s => s ≠ ""
  | Json.arr _ => true
  | Json.obj _ => true

/-- JavaScript truthiness of a possibly-undefined value (`undefined` is
falsy). -/
def jsTruthyOpt : Option Json → Bool
  | none => false
  | some j => jsTruthy j

/-- `v === 'lit'` for a possibly-undefined value `v`. -/
def jsIsStr (o : Option Json) (s : String) : Bool :=
  match o with
  | some (Json.str t) => t == s
  | _ => false

/-- Lower-case base-16 digits, as printed by JavaScript
`Number.prototype.toString(16)` for a natural number. -/
def natToHex (n : Nat) : String :=
  (Nat.toDigits 16 n).asString

/-- `String.prototype.padStart(2, '0')`. -/
def padStart2 (s : String) : String :=
  if s.length ≥ 2 then s
  else if s.length = 1 then "0" ++ s
  else "00"

/-- One random byte rendered as in
`Math.floor(Math.random() * 256).toString(16).padStart(2, '0')`. -/
def toHex2 (n : Nat) : String :=
  padStart2 (natToHex n)

/-- Escaping of one character inside a `JSON.stringify` string literal. -/
def jsEscapeChar (c : Char) : String :=
  if c = '"' then "\\\""
  else if c = '\\' then "\\\\"
  else if c = '\n' then "\\n"
  else if c = '\t' then "\\t"
  else if c = '\r' then "\\r"
  else if c.toNat = 8 then "\\b"
  else if c.toNat = 12 then "\\f"
  else if c.toNat < 32 then "\\u00" ++ toHex2 c.toNat
  else String.singleton c

/-- A `JSON.stringify` string literal. -/
def jsonQuote (s : String) : String :=
  "\"" ++ String.join (s.data.map jsEscapeChar) ++ "\""

mutual

/-- `JSON.stringify` on a defined JSON value (no spacing argument). -/
def jsonStringify : Json → String
  | Json.null => "null"
  | Json.bool b => cond b "true" "false"
  | Json.num n => toString n
  | Json.str s => jsonQuote s
  | Json.arr xs => "[" ++ jsonStringifyArr xs ++ "]"
  | Json.obj fs => "\x7b" ++ jsonStringifyFields fs ++ "\x7d"

/-- Comma-separated serialization of array elements. -/
def jsonStringifyArr : List Json → String
  | [] => ""
  | [x] => jsonStringify x
  | x :: y :: xs => jsonStringify x ++ "," ++ jsonStringifyArr (y :: xs)

/-- Comma-separated serialization of object fields. -/
def jsonStringifyFields : List (String × Json) → String
  | [] => ""
  | [(k, v)] => jsonQuote k ++ ":" ++ jsonStringify v
  | (k, v) :: f :: fs => jsonQuote k ++ ":" ++ jsonStringify v ++ "," ++ jsonStringifyFields (f :: fs)

end

/-! ## Session Log Reader (`src/dashboard/lib/sessions.ts`) -/

/-- Derived status of a session. -/
inductive SessionStatus where
  | active : SessionStatus
  | completed : SessionStatus
  | error : SessionStatus
deriving DecidableEq

/-- The `Session` record returned by `getSessionData`.  `id`,
`startTime`, `endTime` and `error` hold whatever JSON value the
corresponding property access produced (`none` = `undefined`). -/
structure Session where
  id : Option Json
  status : SessionStatus
  startTime : Option Json
  endTime : Option Json
  messages : List Json
  error : Option Json

/-- The loop state of `getSessionData`: the `messages` accumulator and
the `metadata` and `error` variables. -/
structure ScanState where
  messages : List Json := []
  metadata : Option Json := none
  error : Option Json := none

/-- `entry.type === 'metadata'`. -/
def isMetadataLine (j : Json) : Bool :=
  jsIsStr (jsGet j "type") "metadata"

/-- `entry.entry_type === 'message' || ... === 'thinking' || ... === 'system_event'`. -/
def isEntryLine (j : Json) : Bool :=
  jsIsStr (jsGet j "entry_type") "message"
    || jsIsStr (jsGet j "entry_type") "thinking"
    || jsIsStr (jsGet j "entry_type") "system_event"

/-- `entry.entry_type === 'system_event' && entry.data?.type === 'error'`. -/
def isErrorEvent (j : Json) : Bool :=
  jsIsStr (jsGet j "entry_type") "system_event"
    && jsIsStr (jsOptChain (jsGet j "data") "type") "error"

/-- `msg.entry_type === 'system_event' && msg.data?.type === 'completed'`. -/
def isCompletedEvent (j : Json) : Bool :=
  jsIsStr (jsGet j "entry_type") "system_event"
    && jsIsStr (jsOptChain (jsGet j "data") "type") "completed"

/-- `entry.data.details?.message || JSON.stringify(entry.data.details)`,
the value assigned to the `error` variable for an error event.  `data`
is non-null here (guarded by `data?.type === 'error'`), so plain access
and optional chaining agree on it.  `JSON.stringify(undefined)` is
`undefined`, hence the `none` branch when `details` is absent. -/
def errVal (j : Json) : Option Json :=
  let details := jsOptChain (jsGet j "data") "details"
  let msg := jsOptChain details "message"
  if jsTruthyOpt msg then msg
  else
    match details with
    | none => none
    | some d => some (Json.str (jsonStringify d))

/-- One iteration of the `for (const line of lines)` loop of
`getSessionData`.  `none` is a line on which `JSON.parse` throws; a
parsed `null` throws a `TypeError` at `entry.type` — both land in the
same `catch`, leaving the state unchanged. -/
def lineStep (st : ScanState) (line : Option Json) : ScanState :=
  match line with
  | none => st
  | some Json.null => st
  | some j =>
    if isMetadataLine j then
      { st with metadata := some j }
    else if isEntryLine j then
      { st with
        messages := st.messages ++ [j],
        error := if isErrorEvent j then errVal j else st.error }
    else st

/-- `getSessionData` over the parsed, blank-filtered lines of one file.
`none` models the `throw new Error('No metadata found in session file')`
path. -/
def getSessionData (lines : List (Option Json)) : Option Session :=
  let st := lines.foldl lineStep {}
  match st.metadata with
  | none => none
  | some m =>
    let status :=
      if jsTruthyOpt st.error then SessionStatus.error
      else if st.messages.any isCompletedEvent then SessionStatus.completed
      else SessionStatus.active
    some
      { id := jsGet m "session_id",
        status := status,
        startTime := jsGet m "start_time",
        endTime :=
          match st.messages.getLast? with
          | none => none
          | some last => jsGet last "timestamp",
        messages := st.messages,
        error := st.error }

/-- `file.startsWith('session_') && file.endsWith('.jsonl')`, stated
over the file name's character sequence. -/
def isSessionFile (name : String) : Bool :=
  List.isPrefixOf "session_".data name.data
    && List.isSuffixOf ".jsonl".data name.data

/-- `getAllSessions` over a logs directory, given as the list of
`(file name, parsed lines)` in `readdirSync` order.  `getTime0` models
`v => new Date(v).getTime()` on the `startTime` values that occur (a
total numeric time key; an invalid date would give `NaN`, which `Int`
does not represent — the sortedness statements are quantified over the
key function instead).  `Array.prototype.sort` is stable and sorts
ascending in the comparator `(a, b) => timeB - timeA`, i.e. descending
in the time key: modelled as a stable merge sort with
`le a b ↔ getTime0 b.startTime ≤ getTime0 a.startTime`. -/
def getAllSessions (getTime0 : Option Json → Int)
    (dir : List (String × List (Option Json))) : List Session :=
  let files := dir.filter fun f => isSessionFile f.1
  let sessions := files.filterMap fun f => getSessionData f.2
  sessions.mergeSort fun a b => decide (getTime0 b.startTime ≤ getTime0 a.startTime)

example :
    getSessionData [some (Json.obj [("type", Json.str "metadata"),
      ("session_id", Json.str "s1"), ("start_time", Json.str "T0")])] =
    some { id := some (Json.str "s1"), status := SessionStatus.active,
           startTime := some (Json.str "T0"), endTime := none,
           messages := [], error := none } := rfl

/-! ## Job Lifecycle Manager (the `/jobs` API route files) -/

/-- The `status` field of a `JobStatus` record. -/
inductive Status where
  | pending : Status
  | running : Status
  | completed : Status
  | failed : Status
  | cancelled : Status
deriving DecidableEq

/-- The `JobStatus` record of `src/dashboard/types/job.ts`.  Optional
fields are `undefined` (`none`) until assigned.  `workdir` is the JSON
value assigned by `runJob` (the request's `workdir` value when truthy,
else the default project root string). -/
structure JobStatus where
  jobId : String
  status : Status
  createdAt : String
  startedAt : Option String := none
  completedAt : Option String := none
  error : Option String := none
  pid : Option Nat := none
  workdir : Option Json := none

/-- The `global.jobsStore` object: string keys in insertion order (the
32-hex-digit job ids are never array-index-like, so JavaScript preserves
insertion order, and `Object.keys` / `Object.values` enumerate it). -/
def JobsStore := List (String × JobStatus)

/-- `jobs[jobId]` (read). -/
def jobsGet : JobsStore → String → Option JobStatus
  | [], _ => none
  | (k, v) :: rest, jobId => if k = jobId then some v else jobsGet rest jobId

/-- `jobs[jobId] = v`: overwrite in place, or append a fresh key. -/
def jobsSet : JobsStore → String → JobStatus → JobsStore
  | [], jobId, v => [(jobId, v)]
  | (k, w) :: rest, jobId, v =>
    if k = jobId then (jobId, v) :: rest else (k, w) :: jobsSet rest jobId v

/-- The spread base `{...jobs[jobId]}`.  When the key is present this is
the stored record; the keys of this store are never deleted, so the
spread-of-`undefined` default is unreachable in every modelled trace. -/
def spreadBase (store : JobsStore) (jobId : String) : JobStatus :=
  (jobsGet store jobId).getD { jobId := "", status := Status.pending, createdAt := "" }

/-- `generateUUID`: sixteen `Math.floor(Math.random() * 256)` draws
(each in `0..255`), rendered as two lower-case hex digits and joined. -/
def generateUUID (randomBytes : Fin 16 → Fin 256) : String :=
  String.join ((List.finRange 16).map fun i => toHex2 (randomBytes i).val)

/-- The error codes a `process.kill` call can fail with. -/
inductive KillError where
  | ESRCH : KillError
  | EPERM : KillError
  | other : KillError
deriving DecidableEq

/-- Outcome of one `process.kill(pid, ...)` call: it either returns, or
throws with some error code. -/
inductive KillOutcome where
  | ok : KillOutcome
  | err : KillError → KillOutcome
deriving DecidableEq

/-- `isProcessRunning` (identical in both route files): `process.kill(pid, 0)`
inside `try { ... return true } catch (e) { return false }`, as a function
of that call's outcome. -/
def isProcessRunning (outcome : KillOutcome) : Bool :=
  match outcome with
  | KillOutcome.ok => true
  | KillOutcome.err _ => false

/-- JavaScript truthiness of the `pid` field (`undefined` and `0` are
falsy). -/
def pidTruthy : Option Nat → Bool
  | none => false
  | some n => n != 0

/-- `updateJobStatus` (reconciliation): for a record that exists, is
`running` and has a truthy `pid`, probe the pid; when the probe reports
the process gone, mark the job `completed` at the current time.
`probe p` is the outcome of the `process.kill(p, 0)` inside
`isProcessRunning`; `now` is `new Date().toISOString()`. -/
def updateJobStatus (probe : Nat → KillOutcome) (now : String)
    (store : JobsStore) (jobId : String) : JobsStore :=
  match jobsGet store jobId with
  | none => store
  | some job =>
    if job.status = Status.running ∧ pidTruthy job.pid then
      match job.pid with
      | some p =>
        if isProcessRunning (probe p) then store
        else jobsSet store jobId
          { job with status := Status.completed, completedAt := some now }
      | none => store
    else store

/-- Environment of one `runJob` call: the timestamp taken at its top,
the resolved default project root (`path.resolve(process.cwd(), '..')`),
and the synchronously available `childProcess.pid` (`none` when spawn
yielded no pid). -/
structure SpawnEnv where
  startTs : String
  defaultRoot : String
  pid : Option Nat

/-- `runJob` — the synchronous part (everything except the exit
callback): set `status = 'running'` and `startedAt`, resolve
`projectRoot = workdir || defaultProjectRoot`, store it in `workdir`,
spawn, and store the pid when present.  Temp-file and log-stream writes
touch only the file system, not the store. -/
def runJob (env : SpawnEnv) (store : JobsStore) (jobId : String)
    (workdir : Option Json) : JobsStore :=
  let store1 := jobsSet store jobId
    { spreadBase store jobId with status := Status.running, startedAt := some env.startTs }
  let projectRoot :=
    match workdir with
    | some w => if jsTruthy w then w else Json.str env.defaultRoot
    | none => Json.str env.defaultRoot
  let store2 := jobsSet store1 jobId
    { spreadBase store1 jobId with workdir := some projectRoot }
  match env.pid with
  | some p => jobsSet store2 jobId { spreadBase store2 jobId with pid := some p }
  | none => store2

/-- The exit callback passed to `exec` in `runJob`, fired once when the
worker process exits: `error` non-null marks the job `failed` with the
error's message, otherwise `completed`; either way `completedAt` is set.
It spreads `{...jobs[jobId]}` unconditionally — there is no check of the
current status. -/
def execCallback (now : String) (store : JobsStore) (jobId : String)
    (errMsg : Option String) : JobsStore :=
  match errMsg with
  | some m => jobsSet store jobId
      { spreadBase store jobId with
        status := Status.failed, error := some m, completedAt := some now }
  | none => jobsSet store jobId
      { spreadBase store jobId with
        status := Status.completed, completedAt := some now }

/-- An HTTP response from a jobs route: the status code and, for the
`200`/`201` paths, the serialized record. -/
structure JobsResponse where
  statusCode : Nat
  job : Option JobStatus := none

/-- Environment of one `POST /jobs` request: the random bytes drawn by
`generateUUID`, the submission timestamp, and the spawn environment. -/
structure SubmitEnv where
  randomBytes : Fin 16 → Fin 256
  createdTs : String
  spawn : SpawnEnv

/-- The `POST /jobs` handler, on an already-parsed request body.
A `null` body makes `body.agent_worker_task` throw a `TypeError`, caught
by the handler's `catch` (500).  Otherwise: missing/falsy
`agent_worker_task` or `config` → 400 with no store change; else create
the `pending` record, run `runJob` synchronously, and serialize
`jobs[jobId]` as it stands after `runJob` returns, with status 201. -/
def POSTJobs (env : SubmitEnv) (body : Json) (store : JobsStore) :
    JobsResponse × JobsStore :=
  match body with
  | Json.null => ({ statusCode := 500 }, store)
  | _ =>
    if ¬ jsTruthyOpt (jsGet body "agent_worker_task") ∨ ¬ jsTruthyOpt (jsGet body "config") then
      ({ statusCode := 400 }, store)
    else
      let jobId := generateUUID env.randomBytes
      let store1 := jobsSet store jobId
        { jobId := jobId, status := Status.pending, createdAt := env.createdTs }
      let store2 := runJob env.spawn store1 jobId (jsGet body "workdir")
      ({ statusCode := 201, job := jobsGet store2 jobId }, store2)

/-- The `GET /jobs` handler: reconcile every key (in `Object.keys`
order), then serialize `Object.values(jobs)`. -/
def GETJobs (probe : Nat → KillOutcome) (now : String) (store : JobsStore) :
    List JobStatus × JobsStore :=
  let store' := (store.map Prod.fst).foldl (updateJobStatus probe now) store
  (store'.map Prod.snd, store')

/-- The `GET /jobs/[jobId]` handler: 404 when the key is absent, else
reconcile that job and serialize the (possibly updated) record. -/
def GETJob (probe : Nat → KillOutcome) (now : String) (jobId : String)
    (store : JobsStore) : JobsResponse × JobsStore :=
  match jobsGet store jobId with
  | none => ({ statusCode := 404 }, store)
  | some _ =>
    let store' := updateJobStatus probe now store jobId
    ({ statusCode := 200, job := jobsGet store' jobId }, store')

/-- Environment of one `DELETE /jobs/[jobId]` request: the outcome of
the `process.kill(pid)` termination request, the probe used by the
fallback reconciliation in its `catch`, and the current timestamp. -/
structure CancelEnv where
  killRes : KillOutcome
  probe : Nat → KillOutcome
  now : String

/-- The `DELETE /jobs/[jobId]` handler.  Third component: the pid a
termination request (`process.kill(pid)`) was issued to, `none` when no
kill was attempted.  Only a `running` record with a truthy pid is ever
signalled; when the kill throws, the handler falls back to
`updateJobStatus` instead of failing. -/
def DELETEJob (env : CancelEnv) (jobId : String) (store : JobsStore) :
    JobsResponse × JobsStore × Option Nat :=
  match jobsGet store jobId with
  | none => ({ statusCode := 404 }, store, none)
  | some job =>
    if job.status = Status.running ∧ pidTruthy job.pid then
      match job.pid with
      | some p =>
        match env.killRes with
        | KillOutcome.ok =>
          let store' := jobsSet store jobId
            { job with status := Status.cancelled, completedAt := some env.now }
          ({ statusCode := 200, job := jobsGet store' jobId }, store', some p)
        | KillOutcome.err _ =>
          let store' := updateJobStatus env.probe env.now store jobId
          ({ statusCode := 200, job := jobsGet store' jobId }, store', some p)
      | none => ({ statusCode := 200, job := some job }, store, none)
    else ({ statusCode := 200, job := some job }, store, none)

/-! ## Scan lemmas for the session reader -/

/-- The metadata line carried by one parsed line, if any: the lines on
which the `metadata = entry` branch fires. -/
def metaOf (line : Option Json) : Option Json :=
  match line with
  | none => none
  | some Json.null => none
  | some j => if isMetadataLine j then some j else none

/-- The entry retained in `messages` by one parsed line, if any: the
lines on which the `messages.push(entry)` branch fires. -/
def retainedEntry (line : Option Json) : Option Json :=
  match line with
  | none => none
  | some Json.null => none
  | some j =>
    if isMetadataLine j then none
    else if isEntryLine j then some j
    else none

theorem scan_messages (lines : List (Option Json)) (st : ScanState) :
    (lines.foldl lineStep st).messages = st.messages ++ lines.filterMap retainedEntry := by
  induction lines generalizing st with
  | nil => simp
  | cons l rest ih =>
    rw [List.foldl_cons, ih]
    cases l with
    | none => simp [lineStep, retainedEntry]
    | some j =>
      cases j <;> simp only [lineStep, retainedEntry, List.filterMap_cons] <;>
        split_ifs <;> simp

theorem scan_metadata (lines : List (Option Json)) (st : ScanState) :
    (lines.foldl lineStep st).metadata =
      ((lines.filterMap metaOf).getLast?).or st.metadata := by
  induction lines generalizing st with
  | nil => simp
  | cons l rest ih =>
    rw [List.foldl_cons, ih]
    have hcons : ∀ (a : Json) (xs : List Json),
        (a :: xs).getLast? = xs.getLast?.or (some a) := by
      intro a xs
      rw [show a :: xs = [a] ++ xs from rfl, List.getLast?_append]
      rfl
    cases l with
    | none => simp [lineStep, metaOf]
    | some j =>
      cases j <;> simp only [lineStep, metaOf, List.filterMap_cons] <;>
        split_ifs <;>
        simp_all [hcons, Option.or_assoc]

theorem scan_error (lines : List (Option Json)) (st : ScanState) :
    (lines.foldl lineStep st).error =
      ((((lines.filterMap retainedEntry).filter isErrorEvent).getLast?).map errVal).getD
        st.error := by
  induction lines generalizing st with
  | nil => simp
  | cons l rest ih =>
    rw [List.foldl_cons, ih]
    have hcons : ∀ (a : Json) (xs : List Json),
        (a :: xs).getLast? = xs.getLast?.or (some a) := by
      intro a xs
      rw [show a :: xs = [a] ++ xs from rfl, List.getLast?_append]
      rfl
    cases l with
    | none => simp [lineStep, retainedEntry]
    | some j =>
      cases j <;> simp only [lineStep, retainedEntry, List.filterMap_cons] <;>
        split_ifs <;>
        simp_all [hcons, List.filter_cons] <;>
        cases List.find? isErrorEvent (List.filterMap retainedEntry rest).reverse <;> rfl

theorem getSessionData_eq_some (lines : List (Option Json)) (m : Json)
    (hm : (lines.filterMap metaOf).getLast? = some m) :
    getSessionData lines =
      some
        { id := jsGet m "session_id",
          status :=
            if jsTruthyOpt
                ((((lines.filterMap retainedEntry).filter isErrorEvent).getLast?.map
                  errVal).getD none) then
              SessionStatus.error
            else if (lines.filterMap retainedEntry).any isCompletedEvent then
              SessionStatus.completed
            else SessionStatus.active,
          startTime := jsGet m "start_time",
          endTime :=
            match (lines.filterMap retainedEntry).getLast? with
            | none => none
            | some last => jsGet last "timestamp",
          messages := lines.filterMap retainedEntry,
          error :=
            (((lines.filterMap retainedEntry).filter isErrorEvent).getLast?.map
              errVal).getD none } := by
  simp only [getSessionData]
  rw [scan_metadata, scan_messages, scan_error]
  simp [hm]

theorem getSessionData_none (lines : List (Option Json))
    (hm : (lines.filterMap metaOf).getLast? = none) :
    getSessionData lines = none := by
  simp only [getSessionData]
  rw [scan_metadata]
  simp [hm]

theorem retainedEntry_not_metadata (line : Option Json) (x : Json)
    (h : retainedEntry line = some x) : isMetadataLine x = false := by
  cases line with
  | none => cases h
  | some j =>
    cases j <;> simp only [retainedEntry] at h <;> try cases h
    all_goals
      split_ifs at h <;> cases h <;> simp_all

/-! ## Concrete session logs used as inputs below -/

/-- A well-formed metadata line. -/
def metaLine : Json :=
  Json.obj [("type", Json.str "metadata"), ("session_id", Json.str "s1"),
    ("start_time", Json.str "T0")]

/-- A second metadata line with a different id and start time. -/
def metaLine2 : Json :=
  Json.obj [("type", Json.str "metadata"), ("session_id", Json.str "s2"),
    ("start_time", Json.str "T5")]

/-- An error-bearing `system_event` entry with `details.message = msg`. -/
def errEvent (msg : String) : Json :=
  Json.obj [("entry_type", Json.str "system_event"), ("timestamp", Json.str "T"),
    ("data", Json.obj [("type", Json.str "error"),
      ("details", Json.obj [("message", Json.str msg)])])]

/-- A `system_event` of type `error` carrying no `details` at all. -/
def errEventNoDetails : Json :=
  Json.obj [("entry_type", Json.str "system_event"), ("timestamp", Json.str "T2"),
    ("data", Json.obj [("type", Json.str "error")])]

/-- A `thinking` entry. -/
def thinkingEntry : Json :=
  Json.obj [("entry_type", Json.str "thinking"), ("timestamp", Json.str "T1"),
    ("data", Json.obj [("content", Json.str "hm")])]

/-- A log with two error-bearing events, `boom1` then `boom2`. -/
def twoErrorLines : List (Option Json) :=
  [some metaLine, some (errEvent "boom1"), some (errEvent "boom2")]

/-- The record `getSessionData` produces on `twoErrorLines`. -/
def twoErrorSession : Session :=
  { id := some (Json.str "s1"), status := SessionStatus.error,
    startTime := some (Json.str "T0"), endTime := some (Json.str "T"),
    messages := [errEvent "boom1", errEvent "boom2"],
    error := some (Json.str "boom2") }

/-- A log with a detail-bearing error event followed by an error event
with no details. -/
def maskedErrorLines : List (Option Json) :=
  [some metaLine, some (errEvent "boom"), some errEventNoDetails]

/-- The record `getSessionData` produces on `maskedErrorLines`. -/
def maskedErrorSession : Session :=
  { id := some (Json.str "s1"), status := SessionStatus.active,
    startTime := some (Json.str "T0"), endTime := some (Json.str "T2"),
    messages := [errEvent "boom", errEventNoDetails], error := none }

/-- A log whose only lines are two metadata lines. -/
def twoMetaLines : List (Option Json) := [some metaLine, some metaLine2]

/-! ## C4 -/

/-- C4 counterexample: on a log whose retained entries carry two
error-bearing `system_event`s with messages `boom1` then `boom2`, the
parsed record's `error` is `boom2` — the text of the last error-bearing
entry — and not `boom1`, the text of the first, as the claim states. -/
theorem session_error_takes_last_not_first :
    (getSessionData twoErrorLines).map Session.error = some (some (Json.str "boom2")) ∧
    ¬ (getSessionData twoErrorLines).map Session.error = some (some (Json.str "boom1")) := by
  refine ⟨rfl, ?_⟩
  intro hcontra
  rw [show (getSessionData twoErrorLines).map Session.error = some (some (Json.str "boom2"))
    from rfl] at hcontra
  injection hcontra with h1
  injection h1 with h2
  injection h2 with h3
  exact absurd h3 (by decide)

/-- C4 (amended): for every successfully parsed session log whose
retained entries contain at least one error-bearing `system_event`, the
record's `error` field equals the error text (`details.message` when
truthy, else the serialized `details`, else `undefined`) of the LAST
(latest in file order) error-bearing `system_event`, not the first. -/
theorem session_error_eq_last_error_event (lines : List (Option Json)) (s : Session)
    (hs : getSessionData lines = some s) (e : Json)
    (hl : (s.messages.filter isErrorEvent).getLast? = some e) :
    s.error = errVal e := by
  cases hm : (lines.filterMap metaOf).getLast? with
  | none => rw [getSessionData_none lines hm] at hs; cases hs
  | some m =>
    rw [getSessionData_eq_some lines m hm] at hs
    cases hs
    simp only [Session.messages] at hl
    simp [Session.error, hl]

/-- Witness for C4's amended theorem at the concrete `twoErrorLines`. -/
theorem session_error_eq_last_error_event_witness :
    getSessionData twoErrorLines = some twoErrorSession ∧
    twoErrorSession.error = errVal (errEvent "boom2") :=
  ⟨rfl, session_error_eq_last_error_event twoErrorLines twoErrorSession rfl
    (errEvent "boom2") rfl⟩

/-! ## C5 -/

theorem metaOf_entry (e : Json) (h : isMetadataLine e = false) :
    metaOf (some e) = none := by
  cases e <;> simp_all [metaOf]

theorem retainedEntry_entry (e : Json) (h1 : isMetadataLine e = false)
    (h2 : isEntryLine e = true) : retainedEntry (some e) = some e := by
  cases e with
  | obj fields =>
    show (if isMetadataLine (Json.obj fields) = true then none
      else if isEntryLine (Json.obj fields) = true then some (Json.obj fields) else none)
      = some (Json.obj fields)
    rw [h1, h2]
    simp
  | null => exact absurd h2 (by simp [isEntryLine, jsIsStr, jsGet])
  | bool b => exact absurd h2 (by simp [isEntryLine, jsIsStr, jsGet])
  | num n => exact absurd h2 (by simp [isEntryLine, jsIsStr, jsGet])
  | str s => exact absurd h2 (by simp [isEntryLine, jsIsStr, jsGet])
  | arr xs => exact absurd h2 (by simp [isEntryLine, jsIsStr, jsGet])

theorem filterMap_metaOf_entries (entries : List Json)
    (hE : ∀ e ∈ entries, isMetadataLine e = false) :
    (entries.map some).filterMap metaOf = [] := by
  induction entries with
  | nil => rfl
  | cons e es ih =>
    simp only [List.map_cons, List.filterMap_cons,
      metaOf_entry e (hE e (List.mem_cons_self e es))]
    exact ih fun x hx => hE x (List.mem_cons_of_mem e hx)

theorem filterMap_retainedEntry_entries (entries : List Json)
    (hE : ∀ e ∈ entries, isMetadataLine e = false ∧ isEntryLine e = true) :
    (entries.map some).filterMap retainedEntry = entries := by
  induction entries with
  | nil => rfl
  | cons e es ih =>
    have he := hE e (List.mem_cons_self e es)
    simp only [List.map_cons, List.filterMap_cons, retainedEntry_entry e he.1 he.2]
    rw [ih fun x hx => hE x (List.mem_cons_of_mem e hx)]

/-- C5: a log made of a metadata line, then `N` lines that parse as
valid entries (kinds `message` / `thinking` / `system_event`), then one
trailing line on which `JSON.parse` fails, parses successfully, and its
`messages` are exactly the `N` entries in file order — the malformed
trailing line is skipped, not fatal. -/
theorem malformed_trailing_line_tolerated (meta : Json) (entries : List Json)
    (hmeta : isMetadataLine meta = true)
    (hE : ∀ e ∈ entries, isMetadataLine e = false ∧ isEntryLine e = true) :
    ∃ s : Session,
      getSessionData (some meta :: (entries.map some ++ [none])) = some s ∧
      s.messages = entries := by
  have hmOf : metaOf (some meta) = some meta := by
    cases meta <;> simp_all [metaOf, isMetadataLine, jsIsStr, jsGet]
  have hrOf : retainedEntry (some meta) = none := by
    cases meta <;> simp [retainedEntry, hmeta]
  have hm : ((some meta :: (entries.map some ++ [none])).filterMap metaOf).getLast?
      = some meta := by
    rw [List.filterMap_cons_some hmOf, List.filterMap_append,
      filterMap_metaOf_entries entries (fun e he => (hE e he).1),
      show List.filterMap metaOf [none] = [] from rfl]
    rfl
  have hr : (some meta :: (entries.map some ++ [none])).filterMap retainedEntry
      = entries := by
    rw [List.filterMap_cons_none hrOf, List.filterMap_append,
      filterMap_retainedEntry_entries entries hE,
      show List.filterMap retainedEntry [none] = [] from rfl]
    simp
  refine ⟨_, getSessionData_eq_some _ meta hm, ?_⟩
  simp [Session.messages, hr]

/-- Witness for C5 at a concrete three-line log with a trailing
unparseable line. -/
theorem malformed_trailing_line_tolerated_witness :
    ∃ s : Session,
      getSessionData
          (some metaLine :: ([thinkingEntry, errEvent "boom1"].map some ++ [none])) =
        some s ∧
      s.messages = [thinkingEntry, errEvent "boom1"] :=
  malformed_trailing_line_tolerated metaLine [thinkingEntry, errEvent "boom1"] rfl
    (by
      intro e he
      rcases List.mem_cons.mp he with rfl | he2
      · exact ⟨rfl, rfl⟩
      · rcases List.mem_cons.mp he2 with rfl | he3
        · exact ⟨rfl, rfl⟩
        · cases he3)

/-! ## C6 -/

/-- C6 counterexample: on `maskedErrorLines` the retained entries do
contain a `system_event` encoding an error detail (`errEvent "boom"`,
whose `details.message` is the truthy `"boom"`), yet the derived status
is `active`, not `error`: the later detail-less error event overwrote
the `error` variable with `undefined`. -/
theorem session_status_active_despite_error_detail :
    (getSessionData maskedErrorLines).map Session.status = some SessionStatus.active ∧
    (getSessionData maskedErrorLines).map
        (fun s => s.messages.any fun m => isErrorEvent m && jsTruthyOpt (errVal m)) =
      some true :=
  ⟨rfl, rfl⟩

/-- C6 (amended): for every successfully parsed session log, the status
is `error` iff the LAST retained error-bearing `system_event` yields a
truthy error text; otherwise `completed` if any retained `system_event`
encodes explicit completion; otherwise `active`.  The error check still
precedes the completion check. -/
theorem session_status_characterization (lines : List (Option Json)) (s : Session)
    (hs : getSessionData lines = some s) :
    s.status =
      match (s.messages.filter isErrorEvent).getLast? with
      | some e =>
        if jsTruthyOpt (errVal e) then SessionStatus.error
        else if s.messages.any isCompletedEvent then SessionStatus.completed
        else SessionStatus.active
      | none =>
        if s.messages.any isCompletedEvent then SessionStatus.completed
        else SessionStatus.active := by
  cases hm : (lines.filterMap metaOf).getLast? with
  | none => rw [getSessionData_none lines hm] at hs; cases hs
  | some m =>
    rw [getSessionData_eq_some lines m hm] at hs
    cases hs
    cases hl : ((lines.filterMap retainedEntry).filter isErrorEvent).getLast? with
    | none => simp [Session.status, Session.messages, hl, jsTruthyOpt]
    | some e => simp [Session.status, Session.messages, hl]

/-- Witness for C6's amended theorem at the concrete `maskedErrorLines`. -/
theorem session_status_characterization_witness :
    getSessionData maskedErrorLines = some maskedErrorSession ∧
    maskedErrorSession.status =
      match (maskedErrorSession.messages.filter isErrorEvent).getLast? with
      | some e =>
        if jsTruthyOpt (errVal e) then SessionStatus.error
        else if maskedErrorSession.messages.any isCompletedEvent then
          SessionStatus.completed
        else SessionStatus.active
      | none =>
        if maskedErrorSession.messages.any isCompletedEvent then
          SessionStatus.completed
        else SessionStatus.active :=
  ⟨rfl, session_status_characterization maskedErrorLines maskedErrorSession rfl⟩

/-! ## C10 -/

/-- C10: a session log containing more than one metadata line parses
successfully; `id` and `startTime` come from the last metadata line in
file order, and no metadata line is retained in `messages`. -/
theorem last_metadata_wins (lines : List (Option Json))
    (h2 : 1 < (lines.filterMap metaOf).length) :
    ∃ (s : Session) (m : Json),
      (lines.filterMap metaOf).getLast? = some m ∧
      getSessionData lines = some s ∧
      s.id = jsGet m "session_id" ∧
      s.startTime = jsGet m "start_time" ∧
      ∀ x ∈ s.messages, isMetadataLine x = false := by
  have hne : lines.filterMap metaOf ≠ [] := by
    intro h
    rw [h] at h2
    simp at h2
  cases hm : (lines.filterMap metaOf).getLast? with
  | none =>
    rw [List.getLast?_eq_none_iff] at hm
    exact absurd hm hne
  | some m =>
    refine ⟨_, m, rfl, getSessionData_eq_some lines m hm, rfl, rfl, ?_⟩
    intro x hx
    have hx' : x ∈ lines.filterMap retainedEntry := hx
    obtain ⟨line, _, hsome⟩ := List.mem_filterMap.mp hx'
    exact retainedEntry_not_metadata line x hsome

/-- Witness for C10 at a log made of two metadata lines. -/
theorem last_metadata_wins_witness :
    ∃ (s : Session) (m : Json),
      (twoMetaLines.filterMap metaOf).getLast? = some m ∧
      getSessionData twoMetaLines = some s ∧
      s.id = jsGet m "session_id" ∧
      s.startTime = jsGet m "start_time" ∧
      ∀ x ∈ s.messages, isMetadataLine x = false :=
  last_metadata_wins twoMetaLines (by decide)

/-! ## C9 -/

/-- The time key used by the concrete directory below: it models
`v => new Date(v).getTime()` on numeric time values, for which
`new Date(n).getTime() = n`; no other value shape occurs in that
directory. -/
def numTime : Option Json → Int
  | some (Json.num n) => n
  | _ => 0

/-- A metadata line with a numeric `start_time`. -/
def metaNum (sid : String) (t : Int) : Json :=
  Json.obj [("type", Json.str "metadata"), ("session_id", Json.str sid),
    ("start_time", Json.num t)]

/-- A logs directory with two session files whose records carry the same
`start_time`. -/
def tiedDir : List (String × List (Option Json)) :=
  [("session_a.jsonl", [some (metaNum "a" 1000)]),
   ("session_b.jsonl", [some (metaNum "b" 1000)])]

/-- The record parsed from `[some (metaNum sid t)]`. -/
def numSession (sid : String) (t : Int) : Session :=
  { id := some (Json.str sid), status := SessionStatus.active,
    startTime := some (Json.num t), endTime := none, messages := [], error := none }

/-- C9 counterexample: on a directory whose two session files carry the
same `start_time`, `getAllSessions` returns both records adjacently, so
the result is not STRICTLY descending — the first record's time is not
later than the second's. -/
theorem sessions_sort_not_strict :
    getAllSessions numTime tiedDir = [numSession "a" 1000, numSession "b" 1000] ∧
    ¬ (getAllSessions numTime tiedDir).Pairwise
        (fun a b => numTime b.startTime < numTime a.startTime) := by
  have hlist : getAllSessions numTime tiedDir
      = [numSession "a" 1000, numSession "b" 1000] := by
    show List.mergeSort [numSession "a" 1000, numSession "b" 1000]
        (fun a b => decide (numTime b.startTime ≤ numTime a.startTime))
      = [numSession "a" 1000, numSession "b" 1000]
    apply List.mergeSort_of_sorted
    refine List.pairwise_cons.mpr ⟨?_, List.pairwise_singleton _ _⟩
    intro b hb
    rw [List.mem_singleton.mp hb]
    rfl
  refine ⟨hlist, ?_⟩
  rw [hlist]
  intro hpair
  have := (List.pairwise_cons.mp hpair).1 (numSession "b" 1000)
    (List.mem_singleton.mpr rfl)
  simp [numTime, numSession] at this

/-- C9 (amended): for every state of the logs directory and every total
numeric time key (modelling `new Date(·).getTime()` on the `startTime`
values), `getAllSessions` returns exactly the records of the
successfully parsed session files — one file's parse failure does not
abort the others — sorted in NON-INCREASING (not strictly decreasing)
order of the time key; files with equal keys are both kept, adjacent. -/
theorem getAllSessions_sorted_desc (getTime0 : Option Json → Int)
    (dir : List (String × List (Option Json))) :
    (getAllSessions getTime0 dir).Pairwise
        (fun a b => getTime0 b.startTime ≤ getTime0 a.startTime) ∧
    (getAllSessions getTime0 dir).Perm
        ((dir.filter fun f => isSessionFile f.1).filterMap fun f => getSessionData f.2) := by
  constructor
  · have h := @List.sorted_mergeSort Session
      (fun a b => decide (getTime0 b.startTime ≤ getTime0 a.startTime))
      (fun a b c hab hbc => by
        simp only [decide_eq_true_eq] at *
        exact le_trans hbc hab)
      (fun a b => by
        simp only [Bool.or_eq_true, decide_eq_true_eq]
        exact Int.le_total (getTime0 b.startTime) (getTime0 a.startTime))
      ((dir.filter fun f => isSessionFile f.1).filterMap fun f => getSessionData f.2)
    exact h.imp fun hab => of_decide_eq_true hab
  · exact List.mergeSort_perm _ _

/-! ## Store lemmas for the Job Lifecycle Manager -/

theorem jobsGet_jobsSet_self (store : JobsStore) (k : String) (v : JobStatus) :
    jobsGet (jobsSet store k v) k = some v := by
  induction store with
  | nil => simp [jobsSet, jobsGet]
  | cons kv rest ih =>
    obtain ⟨k', v'⟩ := kv
    by_cases h : k' = k <;> simp [jobsSet, jobsGet, h, ih]

/-- The record `runJob` leaves under the job's key, as a function of the
record that was there when it started. -/
def runJobRecord (env : SpawnEnv) (workdir : Option Json) (rec : JobStatus) : JobStatus :=
  { rec with
    status := Status.running,
    startedAt := some env.startTs,
    workdir := some
      (match workdir with
       | some w => if jsTruthy w then w else Json.str env.defaultRoot
       | none => Json.str env.defaultRoot),
    pid :=
      match env.pid with
      | some p => some p
      | none => rec.pid }

theorem runJob_get_self (env : SpawnEnv) (store : JobsStore) (jobId : String)
    (workdir : Option Json) (rec : JobStatus) (h : jobsGet store jobId = some rec) :
    jobsGet (runJob env store jobId workdir) jobId =
      some (runJobRecord env workdir rec) := by
  unfold runJob runJobRecord spreadBase
  rw [h]
  cases env.pid <;> cases workdir <;>
    simp [jobsGet_jobsSet_self]

/-- Unfolding of `POSTJobs` on a non-null body. -/
theorem POSTJobs_of_ne_null (env : SubmitEnv) (body : Json) (store : JobsStore)
    (h : body ≠ Json.null) :
    POSTJobs env body store =
      (if ¬ jsTruthyOpt (jsGet body "agent_worker_task") = true
          ∨ ¬ jsTruthyOpt (jsGet body "config") = true then
        ({ statusCode := 400 }, store)
      else
        ({ statusCode := 201,
           job := jobsGet
             (runJob env.spawn
               (jobsSet store (generateUUID env.randomBytes)
                 { jobId := generateUUID env.randomBytes, status := Status.pending,
                   createdAt := env.createdTs })
               (generateUUID env.randomBytes) (jsGet body "workdir"))
             (generateUUID env.randomBytes) },
         runJob env.spawn
           (jobsSet store (generateUUID env.randomBytes)
             { jobId := generateUUID env.randomBytes, status := Status.pending,
               createdAt := env.createdTs })
           (generateUUID env.randomBytes) (jsGet body "workdir"))) := by
  cases body <;> first | (exact absurd rfl h) | rfl

set_option maxRecDepth 4000 in
theorem toHex2_length_two : ∀ b : Fin 256, (toHex2 b.val).length = 2 := by decide

theorem string_length_join (L : List String) :
    (String.join L).length = (L.map String.length).sum := by
  induction L with
  | nil => rfl
  | cons s rest ih =>
    have h : String.join (s :: rest) = s ++ String.join rest := by
      rw [String.join_eq, String.join_eq]
      rfl
    rw [h, String.length_append, ih, List.map_cons, List.sum_cons]

theorem generateUUID_length (randomBytes : Fin 16 → Fin 256) :
    (generateUUID randomBytes).length = 32 := by
  rw [generateUUID, string_length_join, List.map_map]
  have h : ((List.finRange 16).map (String.length ∘ fun i => toHex2 (randomBytes i).val))
      = (List.finRange 16).map fun _ => 2 := by
    apply List.map_congr_left
    intro i _
    exact toHex2_length_two (randomBytes i)
  rw [h, List.map_const', List.sum_replicate]
  simp

/-! ## Concrete jobs-model inputs -/

/-- A spawn environment whose worker got pid 42. -/
def exSpawnEnv : SpawnEnv := { startTs := "T1", defaultRoot := "/app", pid := some 42 }

/-- A submission environment: all random draws are the byte `0`. -/
def exSubmitEnv : SubmitEnv :=
  { randomBytes := fun _ => 0, createdTs := "T0", spawn := exSpawnEnv }

/-- A valid submission body. -/
def exValidBody : Json :=
  Json.obj [("agent_worker_task", Json.obj []), ("config", Json.obj [])]

/-- A submission body with `config` absent. -/
def exNoConfigBody : Json := Json.obj [("agent_worker_task", Json.obj [])]

/-- The id allocated under `exSubmitEnv` (32 zeros). -/
def exJobId : String := generateUUID exSubmitEnv.randomBytes

/-- Cancel environment for a live worker: the termination request
succeeds. -/
def exCancelRunEnv : CancelEnv :=
  { killRes := KillOutcome.ok, probe := fun _ => KillOutcome.ok, now := "T2" }

/-- The store after submitting `exValidBody` to an empty store. -/
def exStoreAfterPost : JobsStore := (POSTJobs exSubmitEnv exValidBody []).2

/-- The store after then cancelling the (running) job. -/
def exStoreAfterCancel : JobsStore :=
  (DELETEJob exCancelRunEnv exJobId exStoreAfterPost).2.1

/-- The store after the killed worker's exit callback then fires (a
process killed by the termination signal makes `exec` report an
error). -/
def exStoreAfterExit : JobsStore :=
  execCallback "T3" exStoreAfterCancel exJobId
    (some "Command was killed with signal SIGTERM")

/-! ## C1 -/

/-- C1: terminal states are NOT absorbing.  Submit a job (worker pid
42), cancel it while running — status becomes the terminal `cancelled` —
then let the worker's exit callback fire: the callback overwrites the
terminal status with `failed`, because it spreads `{...jobs[jobId]}`
without checking the current status. -/
theorem cancelled_job_overwritten_by_exit_callback :
    (jobsGet exStoreAfterCancel exJobId).map JobStatus.status = some Status.cancelled ∧
    (jobsGet exStoreAfterExit exJobId).map JobStatus.status = some Status.failed :=
  ⟨rfl, rfl⟩

/-! ## C3 -/

/-- C3 counterexample: when the `process.kill(pid, 0)` probe fails with
`EPERM` (permission denied), `isProcessRunning` returns `false` — the
catch-all `catch` returns `false` for every error — whereas the claim
requires `true`. -/
theorem isProcessRunning_eperm_false :
    isProcessRunning (KillOutcome.err KillError.EPERM) = false := rfl

/-- C3 (amended): `isProcessRunning` returns `true` exactly when the
`process.kill(pid, 0)` existence check succeeds; EVERY failure —
no-such-process, permission denied, or anything else — yields `false`. -/
theorem isProcessRunning_true_iff_ok (outcome : KillOutcome) :
    isProcessRunning outcome = true ↔ outcome = KillOutcome.ok := by
  cases outcome <;> simp [isProcessRunning]

/-! ## C2 -/

/-- C2 counterexample: on a valid submission the handler returns 201,
but the serialized record's status is `running`, not `pending` —
`runJob` runs synchronously inside the handler and flips the status
before the response is produced. -/
theorem post_response_is_running_not_pending :
    (POSTJobs exSubmitEnv exValidBody []).1.statusCode = 201 ∧
    ((POSTJobs exSubmitEnv exValidBody []).1.job.map JobStatus.status) =
      some Status.running ∧
    ¬ ((POSTJobs exSubmitEnv exValidBody []).1.job.map JobStatus.status) =
      some Status.pending := by
  refine ⟨rfl, rfl, ?_⟩
  intro h
  rw [show ((POSTJobs exSubmitEnv exValidBody []).1.job.map JobStatus.status) =
      some Status.running from rfl] at h
  exact absurd h (by decide)

/-- C2 (amended): a valid submission (truthy `agent_worker_task` and
`config`) returns 201 with the job record, whose id is the freshly drawn
32-hex-digit uuid (in particular non-empty) and whose `createdAt` is the
submission timestamp — but whose status is already `running` (with
`startedAt` set), unconditionally, whether or not the spawn produced a
pid: the transition to `running` happens synchronously before the
response, not upon successful launch. -/
theorem post_valid_returns_running_record (env : SubmitEnv) (body : Json)
    (store : JobsStore)
    (ht : jsTruthyOpt (jsGet body "agent_worker_task") = true)
    (hc : jsTruthyOpt (jsGet body "config") = true) :
    (POSTJobs env body store).1.statusCode = 201 ∧
    ∃ j : JobStatus,
      (POSTJobs env body store).1.job = some j ∧
      j.status = Status.running ∧
      j.createdAt = env.createdTs ∧
      j.startedAt = some env.spawn.startTs ∧
      j.jobId = generateUUID env.randomBytes ∧
      j.jobId.length = 32 := by
  have hnn : body ≠ Json.null := by
    intro h
    subst h
    simp [jsGet, jsTruthyOpt] at ht
  rw [POSTJobs_of_ne_null env body store hnn,
    if_neg (by push_neg; exact ⟨ht, hc⟩)]
  exact ⟨rfl,
    ⟨_, runJob_get_self env.spawn _ _ _ _ (jobsGet_jobsSet_self _ _ _),
      rfl, rfl, rfl, rfl, generateUUID_length env.randomBytes⟩⟩

/-- Witness for C2's amended theorem at the concrete valid submission. -/
theorem post_valid_returns_running_record_witness :
    (POSTJobs exSubmitEnv exValidBody []).1.statusCode = 201 ∧
    ∃ j : JobStatus,
      (POSTJobs exSubmitEnv exValidBody []).1.job = some j ∧
      j.status = Status.running ∧
      j.createdAt = exSubmitEnv.createdTs ∧
      j.startedAt = some exSubmitEnv.spawn.startTs ∧
      j.jobId = generateUUID exSubmitEnv.randomBytes ∧
      j.jobId.length = 32 :=
  post_valid_returns_running_record exSubmitEnv exValidBody [] rfl rfl

/-! ## C7 -/

/-- C7: a submission whose body lacks `agent_worker_task` or `config`
(the property access yields `undefined`) gets a 400 response and leaves
the store exactly as it was: no record is created, so no new entry can
appear in a later listing. -/
theorem post_missing_field_400 (env : SubmitEnv) (body : Json) (store : JobsStore)
    (hnn : body ≠ Json.null)
    (habs : jsGet body "agent_worker_task" = none ∨ jsGet body "config" = none) :
    POSTJobs env body store = ({ statusCode := 400 }, store) := by
  have hcond : ¬ jsTruthyOpt (jsGet body "agent_worker_task") = true
      ∨ ¬ jsTruthyOpt (jsGet body "config") = true := by
    rcases habs with h | h
    · left
      rw [h]
      simp [jsTruthyOpt]
    · right
      rw [h]
      simp [jsTruthyOpt]
  rw [POSTJobs_of_ne_null env body store hnn, if_pos hcond]

/-- Witness for C7 at a body with `config` absent and an empty store. -/
theorem post_missing_field_400_witness :
    POSTJobs exSubmitEnv exNoConfigBody [] = ({ statusCode := 400 }, []) :=
  post_missing_field_400 exSubmitEnv exNoConfigBody []
    (fun h => Json.noConfusion h) (Or.inr rfl)

/-! ## C8 -/

/-- C8: `DELETE /jobs/[jobId]` on a job whose status is anything but
`running` (or that has no truthy recorded pid) returns the stored record
unchanged, leaves the whole store unchanged, and issues no termination
request; consequently only a `running` job with a recorded pid is ever
sent one. -/
theorem cancel_nonrunning_noop (env : CancelEnv) (jobId : String) (store : JobsStore)
    (job : JobStatus) (hget : jobsGet store jobId = some job)
    (hs : job.status ≠ Status.running ∨ pidTruthy job.pid = false) :
    DELETEJob env jobId store = ({ statusCode := 200, job := some job }, store, none) := by
  have hcond : ¬ (job.status = Status.running ∧ pidTruthy job.pid = true) := by
    rcases hs with h | h
    · exact fun hc => h hc.1
    · exact fun hc => by rw [h] at hc; exact Bool.false_ne_true hc.2
  simp [DELETEJob, hget, hcond]

/-- A terminal (completed) job record. -/
def exDoneJob : JobStatus := { jobId := "j1", status := Status.completed, createdAt := "T0" }

/-- Cancel environment used for the no-op witness. -/
def exCancelEnv2 : CancelEnv :=
  { killRes := KillOutcome.ok, probe := fun _ => KillOutcome.ok, now := "T9" }

/-- Witness for C8 at a store holding one completed job. -/
theorem cancel_nonrunning_noop_witness :
    DELETEJob exCancelEnv2 "j1" [("j1", exDoneJob)] =
      ({ statusCode := 200, job := some exDoneJob }, [("j1", exDoneJob)], none) :=
  cancel_nonrunning_noop exCancelEnv2 "j1" [("j1", exDoneJob)] exDoneJob rfl
    (Or.inl fun h => Status.noConfusion h)
